import Mathlib

/-!
Shallow embedding of the class2type generator (src/index.ts): a source-to-source
generator that turns class declarations into structural type declarations,
resolving enum / type-alias references across one import hop.  Pure functions
mirror the source functions of the same name; the module-level mutable
`globalContent` buffer is threaded explicitly as a `String` state; thrown
`Error`s become `Except String` with the exact message strings of the source.
-/

namespace Class2Type

/-! JavaScript string primitives used by the source, modelled on character
lists.  All strings handled by the tool are ASCII, so one `Char` corresponds to
one UTF-16 code unit of the JS semantics. -/

/-- Helper for removeFirstComma: drops the first `','` of a character list. -/
def removeFirstCommaAux : List Char → List Char
  | [] => []
  | c :: rest => if c = ',' then rest else c :: removeFirstCommaAux rest

/-- Models the JS call `s.replace(",", "")`: with a string pattern, `replace`
rewrites only the first occurrence, so exactly the first comma is removed. -/
def removeFirstComma (s : String) : String := ⟨removeFirstCommaAux s.data⟩

/-- Character index of the first occurrence of `pat` in the remaining hay,
counting from `i`; `none` when `pat` never occurs. -/
def firstOccurAux (pat : List Char) : List Char → Nat → Option Nat
  | [], i => if pat = [] then some i else none
  | c :: t, i =>
    if pat.isPrefixOf (c :: t) then some i else firstOccurAux pat t (i + 1)

/-- Models JS `s.indexOf(pat)`: index of the first occurrence, `-1` if absent. -/
def jsIndexOf (s pat : String) : Int :=
  match firstOccurAux pat.data s.data 0 with
  | some n => (n : Int)
  | none => -1

/-- Number of positions of the hay at which `pat` occurs (occurrences may
overlap; the texts counted in this development never do). -/
def countOccurAux (pat : List Char) : List Char → Nat
  | [] => 0
  | c :: t => (if pat.isPrefixOf (c :: t) then 1 else 0) + countOccurAux pat t

/-- Number of occurrences of `pat` inside `s`, used to state uniqueness of
emitted declaration texts. -/
def countOccur (s pat : String) : Nat := countOccurAux pat.data s.data

/-- Models JS `array.join(sep)`: the elements with `sep` between consecutive
ones, and the empty string for an empty array. -/
def joinWith (sep : String) : List String → String
  | [] => ""
  | [x] => x
  | x :: y :: xs => x ++ sep ++ joinWith sep (y :: xs)

/-- Models JS `s.toLowerCase()` for the ASCII identifier texts the tool
compares: lower-cases every character. -/
def jsToLowerCase (s : String) : String := ⟨s.data.map Char.toLower⟩

/-- Splitting a character list at every slash, the list analogue of
`s.split("/")`. -/
def splitOnSlash : List Char → List (List Char)
  | [] => [[]]
  | x :: xs =>
    match splitOnSlash xs with
    | [] => [[]]
    | r :: rs => if x = '/' then [] :: r :: rs else (x :: r) :: rs

/-- Models JS `s.split("/").pop()`: the text after the last slash. -/
def lastPathSegment (s : String) : String :=
  match (splitOnSlash s.data).getLast? with
  | some seg => ⟨seg⟩
  | none => s

/-- Models Node `path.resolve(dir, spec)` for the specifier shapes this tool
produces: an absolute specifier stands alone, a `./`-relative or bare specifier
is joined onto `dir`.  (`..` normalisation is not exercised by the claims and
is outside the embedding.) -/
def resolvePath (dir spec : String) : String :=
  match spec.data with
  | '/' :: _ => spec
  | '.' :: '/' :: rest => dir ++ "/" ++ ⟨rest⟩
  | _ => dir ++ "/" ++ spec

/-- Models ts-morph `file.getDirectoryPath()`: the path up to the last slash. -/
def dirOf (p : String) : String :=
  joinWith "/" ((splitOnSlash p.data).dropLast.map (fun l => ⟨l⟩))

/-! Data model: the slice of the ts-morph syntax tree that the generator
reads.  Each structure keeps exactly the observations the source code makes of
the corresponding ts-morph node. -/

/-- Classification computed by getRefType: a property whose type node is a
TypeReference is an enum reference when the checker resolves it to an enum,
otherwise a type-alias reference; any other type-node shape (or a missing type
annotation) yields no classification (`getRefType` returns null).  The checker
itself is an external collaborator, so the classification is recorded as data
on the property. -/
inductive RefKind
  | enum
  | typeAlias
deriving DecidableEq, Repr

/-- A property declaration as read through p.getStructure(): name, the
question-token flag, the raw type text, the JsDoc texts, and the getRefType
classification. -/
structure PropertyDecl where
  name : String
  isOptional : Bool
  typeText : String
  jsDocs : List String
  refKind : Option RefKind
deriving DecidableEq, Repr

/-- An immediate child of a class's extends expression, as the walk in run
observes it: a call expression carries the text of its first child (the
callee) and the texts of its SyntaxList children — a call with K plain
arguments has exactly one SyntaxList child whose text is the K argument texts
joined by a comma and space; an identifier child carries its text; every other
node shape is ignored by the walk. -/
inductive ExtendsChild
  | callExpr (calleeText : String) (syntaxListTexts : List String)
  | ident (text : String)
  | other
deriving DecidableEq, Repr

/-- Text of the single SyntaxList child of a call expression whose argument
list is args, as ts-morph prints it. -/
def argListText (args : List String) : String := joinWith ", " args

/-- An enum declaration: name and verbatim getText() output. -/
structure EnumDecl where
  name : String
  text : String
deriving DecidableEq, Repr

/-- A type-alias declaration: name and verbatim getText() output. -/
structure TypeAliasDecl where
  name : String
  text : String
deriving DecidableEq, Repr

/-- An import declaration: module specifier plus its named imports. -/
structure ImportDecl where
  moduleSpecifier : String
  namedImports : List String
deriving DecidableEq, Repr

/-- A class declaration: name, JsDoc texts, properties in declaration order,
and the immediate children of its extends expression (empty when the class
extends nothing, in which case the optional-chained walk does not run). -/
structure ClassDecl where
  name : String
  jsDocs : List String
  properties : List PropertyDecl
  extendsChildren : List ExtendsChild
deriving DecidableEq, Repr

/-- A loaded source file: its resolved path and its declarations. -/
structure SourceFileM where
  path : String
  enums : List EnumDecl
  typeAliases : List TypeAliasDecl
  imports : List ImportDecl
  classes : List ClassDecl
deriving DecidableEq, Repr

/-- The ts-morph Project: the set of loaded source files. -/
structure ProjectM where
  files : List SourceFileM
deriving DecidableEq, Repr

/-- Models project.getSourceFile(path): the loaded file at that path. -/
def ProjectM.getSourceFile (proj : ProjectM) (p : String) : Option SourceFileM :=
  proj.files.find? (fun f => f.path = p)

/-- The ExtendArgsType record pushed by the extends walk in run. -/
structure ExtendArgsType where
  isPartial : Bool
  arg : String
deriving DecidableEq, Repr

/-! Symbol locator (searchForEnumInFiles / searchForTypeAliasInFiles and their
extraction helpers). -/

/-- Models findAndExtractEnumTextFromFile: file.getEnum(name)?.getText(),
null when the file declares no enum of that name. -/
def findAndExtractEnumTextFromFile (file : SourceFileM) (enumName : String) :
    Option String :=
  (file.enums.find? (fun e => e.name = enumName)).map (fun e => e.text)

/-- Models findAndExtractTypeTextFromFile: file.getTypeAlias(name)?.getText(),
null when the file declares no type alias of that name. -/
def findAndExtractTypeTextFromFile (file : SourceFileM) (aliasName : String) :
    Option String :=
  (file.typeAliases.find? (fun t => t.name = aliasName)).map (fun t => t.text)

/-- The ternary `t.indexOf("export") !== 1 ? "export" : ""` that decides the
export marker prepended to a found declaration text. -/
def exportMarker (t : String) : String :=
  if jsIndexOf t "export" = 1 then "" else "export"

/-- The same ternary through optional chaining, `t?.indexOf("export") !== 1`:
when `t` is null the call short-circuits to undefined and `undefined !== 1`
holds, so the marker is "export". -/
def exportMarkerOpt : Option String → String
  | none => "export"
  | some t => exportMarker t

/-- JS template-literal interpolation of a possibly-null string: null prints
as the four characters "null". -/
def jsInterp : Option String → String
  | none => "null"
  | some t => t

/-- Models searchForEnumInFiles: look in the current file first; otherwise
follow the one import whose named imports contain the symbol, resolve the
specifier (plus ".ts") against the current file's directory, and read the enum
from that file.  Thrown errors carry the source's message strings. -/
def searchForEnumInFiles (proj : ProjectM) (currentFile : SourceFileM)
    (enumValue : String) : Except String String :=
  match findAndExtractEnumTextFromFile currentFile enumValue with
  | some foundEnum =>
      .ok (exportMarker foundEnum ++ " " ++ foundEnum ++ "\n\n")
  | none =>
      match currentFile.imports.find?
          (fun d => d.namedImports.contains enumValue) with
      | none =>
          .error ("Could not find import declaration for enum " ++ enumValue)
      | some importedModule =>
          let specifier := importedModule.moduleSpecifier ++ ".ts"
          match proj.getSourceFile (resolvePath (dirOf currentFile.path) specifier) with
          | none => .error ("could not find file at path " ++ specifier)
          | some specifiedFile =>
              let foundEnum := findAndExtractEnumTextFromFile specifiedFile enumValue
              .ok ("\n       // " ++ lastPathSegment specifier ++ "\n       "
                   ++ exportMarkerOpt foundEnum ++ " " ++ jsInterp foundEnum ++ "\n\n")

/-- Models searchForTypeAliasInFiles: identical shape to the enum search, with
the type-alias extraction, its own error messages and its own template
whitespace (nine spaces of indentation instead of seven). -/
def searchForTypeAliasInFiles (proj : ProjectM) (currentFile : SourceFileM)
    (aliasValue : String) : Except String String :=
  match findAndExtractTypeTextFromFile currentFile aliasValue with
  | some foundAlias =>
      .ok (exportMarker foundAlias ++ " " ++ foundAlias ++ "\n\n")
  | none =>
      match currentFile.imports.find?
          (fun d => d.namedImports.contains aliasValue) with
      | none =>
          .error ("Could not find import declaration for typeAlias " ++ aliasValue)
      | some importedModule =>
          let specifier := importedModule.moduleSpecifier ++ ".ts"
          match proj.getSourceFile (resolvePath (dirOf currentFile.path) specifier) with
          | none => .error ("could not find file at path " ++ specifier)
          | some specifiedFile =>
              let foundAlias := findAndExtractTypeTextFromFile specifiedFile aliasValue
              .ok ("\n         // " ++ lastPathSegment specifier ++ "\n         "
                   ++ exportMarkerOpt foundAlias ++ " " ++ jsInterp foundAlias ++ "\n\n")

/-! Property emitter (getPropertiesInTextFormat) and the global accumulator.
The module-level globalContent string is threaded as explicit state. -/

/-- One field line of the structural block, with the exact template whitespace
of the source: newline + 15 spaces + JsDoc texts joined, newline + 17 spaces +
name + optional question mark + colon-space + raw type text, newline + 17
spaces. -/
def fieldLine (p : PropertyDecl) : String :=
  "\n               " ++ String.join p.jsDocs
    ++ "\n                 " ++ p.name ++ (if p.isOptional then "?" else "")
    ++ ": " ++ p.typeText ++ "\n                 "

/-- The accumulator update performed for one property inside
getPropertiesInTextFormat's callback: an enum-classified property runs the
enum search and appends a truthy (non-empty) result to globalContent, a
type-alias-classified property does the same with the alias search, an
unclassified property touches nothing. -/
def appendResolvedSymbolText (proj : ProjectM) (currentFile : SourceFileM)
    (p : PropertyDecl) (g : String) : Except String String :=
  match p.refKind with
  | some .enum => do
      let s ← searchForEnumInFiles proj currentFile p.typeText
      pure (if s = "" then g else g ++ s)
  | some .typeAlias => do
      let s ← searchForTypeAliasInFiles proj currentFile p.typeText
      pure (if s = "" then g else g ++ s)
  | none => pure g

/-- The map of getPropertiesInTextFormat as a recursion over the property
list, threading globalContent; the emitted field line is the same whatever
the classification. -/
def getPropertiesGo (proj : ProjectM) (currentFile : SourceFileM) :
    List PropertyDecl → String → Except String (String × List String)
  | [], g => .ok (g, [])
  | p :: ps, g => do
      let g1 ← appendResolvedSymbolText proj currentFile p g
      let (g2, rest) ← getPropertiesGo proj currentFile ps g1
      pure (g2, fieldLine p :: rest)

/-- Models getPropertiesInTextFormat: maps the class's properties to field
lines in declaration order, appending every resolved enum / type-alias text to
the global accumulator along the way. -/
def getPropertiesInTextFormat (proj : ProjectM) (currentFile : SourceFileM)
    (c : ClassDecl) (g : String) : Except String (String × List String) :=
  getPropertiesGo proj currentFile c.properties g

/-! Class transformer (extends walk, getExtendedType,
getTypePropertiesOrReturnAnyRecord, getExtendedClassContent,
getNormalClassContent). -/

/-- The body of the forEachChild walk over the extends expression in run: a
call expression whose first child's text case-insensitively equals
"PartialType" pushes one partial-flagged entry per SyntaxList child, carrying
the list's text with its first comma removed; an identifier pushes one plain
entry with its text, first comma removed; any other child pushes nothing. -/
def resolveExtendsChild : ExtendsChild → List ExtendArgsType
  | .callExpr calleeText syntaxListTexts =>
      if jsToLowerCase calleeText = jsToLowerCase "PartialType" then
        syntaxListTexts.map (fun sl => { arg := removeFirstComma sl, isPartial := true })
      else []
  | .ident text => [{ arg := removeFirstComma text, isPartial := false }]
  | .other => []

/-- The whole extends walk: the entries pushed by all children in order. -/
def resolveExtends (children : List ExtendsChild) : List ExtendArgsType :=
  (children.map resolveExtendsChild).flatten

/-- Models getExtendedType: a partial-flagged argument is wrapped in
Partial<...>, a plain one is used as is. -/
def getExtendedType (arg : ExtendArgsType) : String :=
  if arg.isPartial then "Partial<" ++ arg.arg ++ ">" else arg.arg

/-- Models getTypePropertiesOrReturnAnyRecord: a non-empty property list
yields the structural block (preceded by an ampersand when extending), with
the source template's exact whitespace and the lines joined by
semicolon-newline; an empty list yields the empty string when extending and
the permissive record fallback otherwise. -/
def getTypePropertiesOrReturnAnyRecord (properties : List String)
    (isExtending : Bool) : String :=
  if properties.length ≠ 0 then
    (if isExtending then "& " else "") ++ " \x7b\n               "
      ++ joinWith ";\n" properties ++ "\n           \x7d;"
  else
    if isExtending then "" else "Record<string, any>"

/-- Models getExtendedClassContent: the class comment, then the export type
declaration equal to the resolved extend terms joined by ampersand-space,
then the (possibly empty) intersected structural block, closed by a
semicolon. -/
def getExtendedClassContent (classComment className : String)
    (extendArgs : List ExtendArgsType) (properties : List String) : String :=
  let resolvedArgs := joinWith "& " (extendArgs.map getExtendedType)
  "\n       " ++ classComment ++ "\n       export type " ++ className
    ++ " = " ++ resolvedArgs ++ "\n       "
    ++ getTypePropertiesOrReturnAnyRecord properties true ++ ";"

/-- Models getNormalClassContent: the class comment, then the export type
declaration equal to the structural block or the record fallback, closed by a
semicolon. -/
def getNormalClassContent (classComment className : String)
    (properties : List String) : String :=
  "\n       " ++ classComment ++ "\n       export type " ++ className ++ " = "
    ++ getTypePropertiesOrReturnAnyRecord properties false ++ ";"

/-! The run pipeline: per class, per file, and the two output artifacts. -/

/-- One iteration of the per-class loop in run: emit the properties (with
their accumulator side effects) first, then walk the extends clause, and take
the extended path exactly when the walk produced at least one entry. -/
def processClass (proj : ProjectM) (currentFile : SourceFileM) (c : ClassDecl)
    (g : String) : Except String (String × String) := do
  let classComment := String.join c.jsDocs
  let (g1, properties) ← getPropertiesInTextFormat proj currentFile c g
  let extendArgs := resolveExtends c.extendsChildren
  if extendArgs.length ≠ 0 then
    pure (g1, getExtendedClassContent classComment c.name extendArgs properties)
  else
    pure (g1, getNormalClassContent classComment c.name properties)

/-- The per-class loop of run over one file: appends each class's content to
the file's content fragment, threading the accumulator; a thrown resolution
error unwinds immediately, skipping every later class. -/
def processClasses (proj : ProjectM) (currentFile : SourceFileM) :
    List ClassDecl → String → String → Except String (String × String)
  | [], g, content => .ok (g, content)
  | c :: cs, g, content => do
      let (g1, cText) ← processClass proj currentFile c g
      processClasses proj currentFile cs g1 (content ++ cText)

/-- One iteration of the per-file loop of run: the file-comment header (with
the source template's whitespace) followed by every class's content. -/
def processFile (proj : ProjectM) (file : SourceFileM) (g : String) :
    Except String (String × String) :=
  processClasses proj file file.classes g
    ("\n           // " ++ lastPathSegment file.path ++ "\n       ")

/-- The per-file loop of run: collects each file's content fragment in order,
threading the accumulator; a thrown error unwinds immediately, skipping every
later file. -/
def runFilesGo (proj : ProjectM) :
    List SourceFileM → String → List String → Except String (String × List String)
  | [], g, contents => .ok (g, contents)
  | f :: fs, g, contents => do
      let (g1, content) ← processFile proj f g
      runFilesGo proj fs g1 (contents ++ [content])

/-- The raw-text artifact (types.temp) as written after the last file: the
final accumulator, a space, then every file fragment followed by two
newlines.  The generator starts each invocation with an empty accumulator. -/
def preFormatOutput (proj : ProjectM) : Except String String := do
  let (g, contents) ← runFilesGo proj proj.files "" []
  pure (g ++ " " ++ String.join (contents.map (fun c => c ++ "\n\n")))

/-- Models getFinalContentTemplate: wraps the content in the namespace block,
with the source template's exact whitespace. -/
def getFinalContentTemplate (ns innerContent : String) : String :=
  "\n           namespace " ++ ns ++ " \x7b\n               " ++ innerContent
    ++ "\n           \x7d\n       "

/-- The pre-format text of the main output artifact after the last file:
the namespace template around accumulator-space-fragments.  (The external
formatter applied afterwards is cosmetic and outside the embedding.) -/
def finalOutput (ns : String) (proj : ProjectM) : Except String String :=
  (preFormatOutput proj).map (getFinalContentTemplate ns)

/-- The missing-import error message thrown by the symbol locator, per
declaration kind, verbatim from the source. -/
def missingImportMessage : RefKind → String → String
  | .enum, sym => "Could not find import declaration for enum " ++ sym
  | .typeAlias, sym => "Could not find import declaration for typeAlias " ++ sym

/-! Concrete projects used as witnesses and counterexample inputs. -/

/-- An enum declaration text that is already exported. -/
def c1EnumText : String := "export enum Status { A }"

/-- A file declaring the already-exported enum locally. -/
def c1File : SourceFileM := ⟨"/p/a.ts", [⟨"Status", c1EnumText⟩], [], [], []⟩

/-- Project holding only that file. -/
def c1Proj : ProjectM := ⟨[c1File]⟩

/-- An import target file that declares no enum at all. -/
def c2Other : SourceFileM := ⟨"/p/other.ts", [], [], [], []⟩

/-- A class with one property classified as a reference to enum E. -/
def c2Class : ClassDecl := ⟨"A", [], [⟨"e", false, "E", [], some .enum⟩], []⟩

/-- The current file: no local E, but an import naming E from ./other. -/
def c2Cur : SourceFileM := ⟨"/p/a.ts", [], [], [⟨"./other", ["E"]⟩], [c2Class]⟩

/-- Project in which the import hop succeeds but the target lacks E. -/
def c2Proj : ProjectM := ⟨[c2Cur, c2Other]⟩

/-- A property with a doc comment, optional marker and plain type. -/
def c4Prop1 : PropertyDecl := ⟨"a", true, "string", ["/** doc a */"], none⟩

/-- A second property, required, without docs. -/
def c4Prop2 : PropertyDecl := ⟨"b", false, "number", [], none⟩

/-- A two-property class with no inheritance clause. -/
def c4Class : ClassDecl := ⟨"W", [], [c4Prop1, c4Prop2], []⟩

/-- File holding the two-property class. -/
def c4File : SourceFileM := ⟨"/p/w.ts", [], [], [], [c4Class]⟩

/-- A file whose only class references an enum that is neither declared
locally nor named by any import. -/
def c7Cur : SourceFileM :=
  ⟨"/p/a.ts", [], [], [], [⟨"A", [], [⟨"x", false, "Missing", [], some .enum⟩], []⟩]⟩

/-- The verbatim text of the Status enum declared next to class Foo. -/
def c8StatusText : String := "enum Status { A }"

/-- A file declaring enum Status and a class Foo with one Status-typed
property. -/
def c8File : SourceFileM :=
  ⟨"/p/foo.dto.ts", [⟨"Status", c8StatusText⟩], [], [],
    [⟨"Foo", [], [⟨"status", false, "Status", [], some .enum⟩], []⟩]⟩

/-- Project holding only that file. -/
def c8Proj : ProjectM := ⟨[c8File]⟩

/-- The pre-formatting output text the generator produces for c8Proj under
namespace Api. -/
def c8Out : String :=
  "\n           namespace Api \x7b\n               export enum Status \x7b A \x7d\n\n \n           // foo.dto.ts\n       \n       \n       export type Foo =  \x7b\n               \n               \n                 status: Status\n                 \n           \x7d;;\n\n\n           \x7d\n       "

/-- A file declaring enum S, referenced twice by the witness class of the
duplicate-append theorem. -/
def c10File : SourceFileM := ⟨"/p/s.ts", [⟨"S", "enum S { A }"⟩], [], [], []⟩

/-! Helper lemmas about the string primitives and the error propagation of
the pipeline, shared by the claim theorems below. -/

lemma removeFirstCommaAux_of_not_mem (l : List Char) (h : ',' ∉ l) :
    removeFirstCommaAux l = l := by
  induction l with
  | nil => rfl
  | cons c t ih =>
      rw [removeFirstCommaAux, if_neg (fun e => h (by simp [e])),
        ih (fun m => h (List.mem_cons_of_mem c m))]

lemma removeFirstComma_of_not_mem (s : String) (h : ',' ∉ s.data) :
    removeFirstComma s = s :=
  String.ext (removeFirstCommaAux_of_not_mem s.data h)

lemma isPrefixOf_append_right {pat l : List Char} (y : List Char)
    (h : pat.isPrefixOf l = true) : pat.isPrefixOf (l ++ y) = true :=
  List.isPrefixOf_iff_prefix.2
    ((List.isPrefixOf_iff_prefix.1 h).trans (List.prefix_append l y))

lemma countOccurAux_append_le (pat x y : List Char) :
    countOccurAux pat x + countOccurAux pat y ≤ countOccurAux pat (x ++ y) := by
  induction x with
  | nil => simp [countOccurAux]
  | cons c t ih =>
      rw [List.cons_append, countOccurAux, countOccurAux]
      by_cases h : pat.isPrefixOf (c :: t) = true
      · rw [if_pos h]
        rw [if_pos (by rw [← List.cons_append]; exact isPrefixOf_append_right y h)]
        omega
      · rw [if_neg h]
        omega

lemma countOccur_append_le (a b pat : String) :
    countOccur a pat + countOccur b pat ≤ countOccur (a ++ b) pat := by
  unfold countOccur
  rw [String.data_append]
  exact countOccurAux_append_le pat.data a.data b.data

lemma one_le_countOccur_self (T : String) (hT : T ≠ "") : 1 ≤ countOccur T T := by
  unfold countOccur
  cases hd : T.data with
  | nil => exact absurd (String.ext hd) hT
  | cons c t =>
      rw [countOccurAux,
        if_pos (List.isPrefixOf_iff_prefix.2 (List.prefix_refl _))]
      omega

lemma append_eq_empty_right {a b : String} (h : a ++ b = "") : b = "" := by
  have hd := congrArg String.data h
  rw [String.data_append] at hd
  exact String.ext (List.append_eq_nil.1 hd).2

lemma getPropertiesGo_ok_lines (proj : ProjectM) (cur : SourceFileM) :
    ∀ (ps : List PropertyDecl) (g g' : String) (lines : List String),
      getPropertiesGo proj cur ps g = .ok (g', lines) → lines = ps.map fieldLine := by
  intro ps
  induction ps with
  | nil =>
      intro g g' lines h
      rw [getPropertiesGo] at h
      cases h
      rfl
  | cons p ps ih =>
      intro g g' lines h
      cases hstep : appendResolvedSymbolText proj cur p g with
      | error e =>
          rw [getPropertiesGo, hstep] at h
          simp [Bind.bind, Except.bind] at h
      | ok g1 =>
          cases hrec : getPropertiesGo proj cur ps g1 with
          | error e =>
              rw [getPropertiesGo, hstep] at h
              simp only [Bind.bind, Except.bind] at h
              rw [hrec] at h
              simp at h
          | ok pr =>
              obtain ⟨g2, rest⟩ := pr
              rw [getPropertiesGo, hstep] at h
              simp only [Bind.bind, Except.bind] at h
              rw [hrec] at h
              simp only [pure, Except.pure, Except.ok.injEq, Prod.mk.injEq] at h
              rw [← h.2, List.map_cons, ih g1 g2 rest hrec]

lemma firstOccurAux_append_isSome (pat : List Char) :
    ∀ (x : List Char) (i : Nat), (firstOccurAux pat (x ++ pat) i).isSome = true := by
  intro x
  induction x with
  | nil =>
      intro i
      cases pat with
      | nil => simp [firstOccurAux]
      | cons c t =>
          rw [List.nil_append, firstOccurAux,
            if_pos (List.isPrefixOf_iff_prefix.2 (List.prefix_refl _))]
          rfl
  | cons c x ih =>
      intro i
      rw [List.cons_append, firstOccurAux]
      by_cases h : pat.isPrefixOf (c :: (x ++ pat)) = true
      · rw [if_pos h]; rfl
      · rw [if_neg h]; exact ih (i + 1)

lemma jsIndexOf_append_self_nonneg (p E : String) : 0 ≤ jsIndexOf (p ++ E) E := by
  unfold jsIndexOf
  have h := firstOccurAux_append_isSome E.data p.data 0
  rw [String.data_append]
  cases ho : firstOccurAux E.data (p.data ++ E.data) 0 with
  | none => rw [ho] at h; simp at h
  | some n => simp [ho]

lemma appendResolvedSymbolText_missing_import (proj : ProjectM)
    (cur : SourceFileM) (k : RefKind) (E pname : String) (opt : Bool)
    (pdocs : List String) (g : String)
    (henum : findAndExtractEnumTextFromFile cur E = none)
    (halias : findAndExtractTypeTextFromFile cur E = none)
    (himp : cur.imports.find? (fun d => d.namedImports.contains E) = none) :
    appendResolvedSymbolText proj cur ⟨pname, opt, E, pdocs, some k⟩ g =
      .error (missingImportMessage k E) := by
  cases k with
  | enum =>
      simp only [appendResolvedSymbolText, searchForEnumInFiles, henum, himp,
        missingImportMessage, Bind.bind, Except.bind]
  | typeAlias =>
      simp only [appendResolvedSymbolText, searchForTypeAliasInFiles, halias,
        himp, missingImportMessage, Bind.bind, Except.bind]

lemma getPropertiesGo_head_error (proj : ProjectM) (cur : SourceFileM)
    (p : PropertyDecl) (ps : List PropertyDecl) (g e : String)
    (h : appendResolvedSymbolText proj cur p g = .error e) :
    getPropertiesGo proj cur (p :: ps) g = .error e := by
  rw [getPropertiesGo, h]
  simp [Bind.bind, Except.bind]

lemma processClass_props_error (proj : ProjectM) (cur : SourceFileM)
    (c : ClassDecl) (g e : String)
    (h : getPropertiesInTextFormat proj cur c g = .error e) :
    processClass proj cur c g = .error e := by
  rw [processClass, h]
  simp [Bind.bind, Except.bind]

lemma processClasses_head_error (proj : ProjectM) (cur : SourceFileM)
    (c : ClassDecl) (cs : List ClassDecl) (g acc e : String)
    (h : processClass proj cur c g = .error e) :
    processClasses proj cur (c :: cs) g acc = .error e := by
  rw [processClasses, h]
  simp [Bind.bind, Except.bind]

lemma runFilesGo_head_error (proj : ProjectM) (f : SourceFileM)
    (fs : List SourceFileM) (g e : String) (acc : List String)
    (h : processFile proj f g = .error e) :
    runFilesGo proj (f :: fs) g acc = .error e := by
  rw [runFilesGo, h]
  simp [Bind.bind, Except.bind]

/-! Claim theorems. -/

/-- C1: the claim says a declaration already beginning with `export` is
returned without a second export marker.  The code compares indexOf("export")
with 1 instead of 0, so for an already-exported enum (indexOf = 0) the marker
is prepended again and the locator returns text starting "export export". -/
theorem c1_already_exported_enum_gets_second_export_marker :
    jsIndexOf c1EnumText "export" = 0 ∧
      searchForEnumInFiles c1Proj c1File "Status" =
        .ok ("export" ++ " " ++ c1EnumText ++ "\n\n") ∧
      "export" ++ " " ++ c1EnumText ++ "\n\n" =
        "export export enum Status { A }\n\n" :=
  ⟨by decide, rfl, by decide⟩

/-- C2: the claim says a lookup that reaches the import-hop target file but
finds no declaration there returns no text and appends nothing.  The code has
no null check after the hop: it returns a truthy comment-plus-"export null"
block, which the caller appends to the global accumulator. -/
theorem c2_import_hop_missing_decl_returns_null_text :
    searchForEnumInFiles c2Proj c2Cur "E" =
        .ok "\n       // other.ts\n       export null\n\n" ∧
      ("\n       // other.ts\n       export null\n\n" : String) ≠ "" ∧
      getPropertiesInTextFormat c2Proj c2Cur c2Class "" =
        .ok ("\n       // other.ts\n       export null\n\n",
          ["\n               \n                 e: E\n                 "]) :=
  ⟨rfl, by decide, rfl⟩

/-- C3 counterexample: the claim says a PartialType call with K arguments
produces K wrapped terms, one per argument.  For the two-argument call
PartialType(A, B) the walk produces a single term whose text is "A B" (the
whole argument list with only its first comma removed), not two terms. -/
theorem c3_wrap_call_two_args_one_term :
    resolveExtends [ExtendsChild.callExpr "PartialType" [argListText ["A", "B"]]] =
        [⟨true, "A B"⟩] ∧
      (resolveExtends
          [ExtendsChild.callExpr "PartialType" [argListText ["A", "B"]]]).length ≠ 2 :=
  ⟨rfl, by decide⟩

/-- C3 amended: a call-style child whose callee case-insensitively equals
"PartialType" contributes exactly one wrapped term per SyntaxList child of the
call (one per ordinary argument list, whatever the number of arguments),
carrying that SyntaxList's full text with only its first comma removed. -/
theorem c3_wrap_call_one_term_per_syntax_list (callee : String)
    (sls : List String) (h : jsToLowerCase callee = jsToLowerCase "PartialType") :
    resolveExtendsChild (ExtendsChild.callExpr callee sls) =
      sls.map (fun sl => ⟨true, removeFirstComma sl⟩) := by
  rw [resolveExtendsChild, if_pos h]

/-- Witness for the amended C3 theorem at a concrete case-insensitive callee
and a two-argument SyntaxList. -/
theorem c3_wrap_call_one_term_per_syntax_list_witness :
    jsToLowerCase "partialTYPE" = jsToLowerCase "PartialType" ∧
      resolveExtendsChild (ExtendsChild.callExpr "partialTYPE" ["A, B"]) =
        [⟨true, "A B"⟩] :=
  ⟨by decide, by
    rw [c3_wrap_call_one_term_per_syntax_list "partialTYPE" ["A, B"] (by decide)]
    rfl⟩

/-- C4: whenever the property emitter succeeds, it emits exactly one field
line per property, in declaration order, each consisting of the property's
doc comments verbatim, its name, a question mark exactly when the property is
optional, and the raw type text copied unchanged. -/
theorem c4_field_lines_in_order (proj : ProjectM) (cur : SourceFileM)
    (c : ClassDecl) (g g' : String) (lines : List String)
    (h : getPropertiesInTextFormat proj cur c g = .ok (g', lines)) :
    lines = c.properties.map (fun p =>
      "\n               " ++ String.join p.jsDocs
        ++ "\n                 " ++ p.name ++ (if p.isOptional then "?" else "")
        ++ ": " ++ p.typeText ++ "\n                 ") :=
  getPropertiesGo_ok_lines proj cur c.properties g g' lines h

/-- Witness for C4 at a concrete two-property class. -/
theorem c4_field_lines_in_order_witness :
    (["\n               /** doc a */\n                 a?: string\n                 ",
      "\n               \n                 b: number\n                 "] : List String) =
      c4Class.properties.map (fun p =>
        "\n               " ++ String.join p.jsDocs
          ++ "\n                 " ++ p.name ++ (if p.isOptional then "?" else "")
          ++ ": " ++ p.typeText ++ "\n                 ") :=
  c4_field_lines_in_order ⟨[c4File]⟩ c4File c4Class "" ""
    ["\n               /** doc a */\n                 a?: string\n                 ",
     "\n               \n                 b: number\n                 "] rfl

/-- C5: a class with no properties and no resolved extends terms is emitted
as the permissive record fallback, never as an empty structural block. -/
theorem c5_empty_class_record_fallback (proj : ProjectM) (cur : SourceFileM)
    (name : String) (docs : List String) (children : List ExtendsChild)
    (g : String) (h : resolveExtends children = []) :
    processClass proj cur ⟨name, docs, [], children⟩ g =
      .ok (g, "\n       " ++ String.join docs ++ "\n       export type "
        ++ name ++ " = " ++ "Record<string, any>" ++ ";") := by
  simp only [processClass, getPropertiesInTextFormat, getPropertiesGo, h,
    Bind.bind, Except.bind, pure, Except.pure, getNormalClassContent,
    getTypePropertiesOrReturnAnyRecord]
  simp

/-- Witness for C5 at a concrete empty class. -/
theorem c5_empty_class_record_fallback_witness :
    resolveExtends [] = [] ∧
      processClass ⟨[]⟩ ⟨"/p/e.ts", [], [], [], []⟩ ⟨"Empty", [], [], []⟩ "" =
        .ok ("", "\n       " ++ String.join [] ++ "\n       export type "
          ++ "Empty" ++ " = " ++ "Record<string, any>" ++ ";") :=
  ⟨rfl, c5_empty_class_record_fallback ⟨[]⟩ ⟨"/p/e.ts", [], [], [], []⟩
    "Empty" [] [] "" rfl⟩

/-- C6: a class whose extends clause resolves to the two plain identifiers A
then B is emitted as the terms A and B joined by the intersection operator in
resolution order, with no structural block and no record fallback appended
when the class has no own properties (the block position holds the empty
string). -/
theorem c6_two_plain_bases_intersection (proj : ProjectM) (cur : SourceFileM)
    (name a b : String) (docs : List String) (g : String)
    (ha : ',' ∉ a.data) (hb : ',' ∉ b.data) :
    processClass proj cur
        ⟨name, docs, [], [ExtendsChild.ident a, ExtendsChild.ident b]⟩ g =
      .ok (g, "\n       " ++ String.join docs ++ "\n       export type " ++ name
        ++ " = " ++ (a ++ "& " ++ b) ++ "\n       " ++ "" ++ ";") := by
  simp only [processClass, getPropertiesInTextFormat, getPropertiesGo,
    Bind.bind, Except.bind, pure, Except.pure, resolveExtends,
    resolveExtendsChild, List.map_cons, List.map_nil, List.flatten,
    removeFirstComma_of_not_mem a ha, removeFirstComma_of_not_mem b hb,
    getExtendedClassContent, getExtendedType, getTypePropertiesOrReturnAnyRecord,
    joinWith]
  simp

/-- Witness for C6 at concrete identifiers A and B. -/
theorem c6_two_plain_bases_intersection_witness :
    (',' ∉ ("A" : String).data) ∧ (',' ∉ ("B" : String).data) ∧
      processClass ⟨[]⟩ ⟨"/p/c.ts", [], [], [], []⟩
          ⟨"C", [], [], [ExtendsChild.ident "A", ExtendsChild.ident "B"]⟩ "" =
        .ok ("", "\n       " ++ String.join [] ++ "\n       export type " ++ "C"
          ++ " = " ++ ("A" ++ "& " ++ "B") ++ "\n       " ++ "" ++ ";") :=
  ⟨by decide, by decide,
    c6_two_plain_bases_intersection ⟨[]⟩ ⟨"/p/c.ts", [], [], [], []⟩
      "C" "A" "B" [] "" (by decide) (by decide)⟩

/-- C7: a property classified as an enum or type-alias reference whose symbol
is declared neither in the current file nor named by any of its imports makes
the whole run fail with the missing-import resolution error, whose message
contains the symbol; the error is the same whatever classes follow in the
file and whatever files follow in the run, so nothing after the failure is
processed. -/
theorem c7_missing_import_aborts_run (proj : ProjectM) (cur : SourceFileM)
    (k : RefKind) (E pname cname : String) (opt : Bool)
    (pdocs cdocs : List String) (moreProps : List PropertyDecl)
    (ch : List ExtendsChild) (restClasses : List ClassDecl)
    (henum : findAndExtractEnumTextFromFile cur E = none)
    (halias : findAndExtractTypeTextFromFile cur E = none)
    (himp : cur.imports.find? (fun d => d.namedImports.contains E) = none)
    (hcls : cur.classes =
      ⟨cname, cdocs, ⟨pname, opt, E, pdocs, some k⟩ :: moreProps, ch⟩ :: restClasses) :
    (∀ (restFiles : List SourceFileM) (g : String) (acc : List String),
        runFilesGo proj (cur :: restFiles) g acc =
          .error (missingImportMessage k E)) ∧
      0 ≤ jsIndexOf (missingImportMessage k E) E := by
  constructor
  · intro restFiles g acc
    apply runFilesGo_head_error
    rw [processFile, hcls]
    apply processClasses_head_error
    apply processClass_props_error
    rw [getPropertiesInTextFormat]
    apply getPropertiesGo_head_error
    exact appendResolvedSymbolText_missing_import proj cur k E pname opt pdocs
      g henum halias himp
  · cases k with
    | enum =>
        exact jsIndexOf_append_self_nonneg
          "Could not find import declaration for enum " E
    | typeAlias =>
        exact jsIndexOf_append_self_nonneg
          "Could not find import declaration for typeAlias " E

/-- Witness for C7 at a concrete one-file project whose class references the
undeclared, unimported enum Missing. -/
theorem c7_missing_import_aborts_run_witness :
    findAndExtractEnumTextFromFile c7Cur "Missing" = none ∧
      findAndExtractTypeTextFromFile c7Cur "Missing" = none ∧
      c7Cur.imports.find? (fun d => d.namedImports.contains "Missing") = none ∧
      runFilesGo ⟨[c7Cur]⟩ [c7Cur] "" [] =
        .error (missingImportMessage RefKind.enum "Missing") ∧
      0 ≤ jsIndexOf (missingImportMessage RefKind.enum "Missing") "Missing" := by
  have h := c7_missing_import_aborts_run ⟨[c7Cur]⟩ c7Cur RefKind.enum "Missing"
    "x" "A" false [] [] [] [] [] rfl rfl rfl rfl
  exact ⟨rfl, rfl, rfl, h.1 [] "" [], h.2⟩

set_option maxRecDepth 100000 in
/-- C8: for the concrete file declaring enum Status next to class Foo with
one Status-typed property, the assembled final output contains the verbatim
Status declaration text exactly once, and its occurrence precedes the Foo
type declaration (which itself occurs exactly once). -/
theorem c8_enum_emitted_once_before_class :
    finalOutput "Api" c8Proj = .ok c8Out ∧
      countOccur c8Out c8StatusText = 1 ∧
      0 ≤ jsIndexOf c8Out c8StatusText ∧
      jsIndexOf c8Out c8StatusText < jsIndexOf c8Out "export type Foo" ∧
      countOccur c8Out "export type Foo" = 1 :=
  ⟨rfl, by decide, by decide, by decide, by decide⟩

/-- C9: the generator is deterministic: two invocations on equal loaded
projects produce equal raw-text artifacts and equal final outputs.  Each
invocation starts from the empty accumulator, and the embedding's inputs (the
loaded files and the namespace) are the only inputs of the transformation. -/
theorem c9_deterministic_output (ns : String) (p q : ProjectM) (h : p = q) :
    preFormatOutput p = preFormatOutput q ∧ finalOutput ns p = finalOutput ns q := by
  subst h
  exact ⟨rfl, rfl⟩

/-- Witness for C9 at a concrete project. -/
theorem c9_deterministic_output_witness :
    preFormatOutput ⟨[c1File]⟩ = preFormatOutput ⟨[c1File]⟩ ∧
      finalOutput "Api" ⟨[c1File]⟩ = finalOutput "Api" ⟨[c1File]⟩ :=
  c9_deterministic_output "Api" ⟨[c1File]⟩ ⟨[c1File]⟩ rfl

/-- C10: when one class holds two properties both classified as references to
the same locally declared enum, each successful resolution appends the
resolved block to the accumulator unconditionally: the final accumulator is
the initial one followed by the block twice, and hence contains the enum's
declaration text at least twice. -/
theorem c10_duplicate_resolution_appends_twice (proj : ProjectM)
    (cur : SourceFileM) (cname E T : String) (cdocs : List String)
    (n1 n2 : String) (o1 o2 : Bool) (d1 d2 : List String)
    (ch : List ExtendsChild) (g : String)
    (hfind : findAndExtractEnumTextFromFile cur E = some T) (hT : T ≠ "") :
    getPropertiesInTextFormat proj cur
        ⟨cname, cdocs,
          [⟨n1, o1, E, d1, some .enum⟩, ⟨n2, o2, E, d2, some .enum⟩], ch⟩ g =
      .ok (g ++ (exportMarker T ++ " " ++ T ++ "\n\n")
            ++ (exportMarker T ++ " " ++ T ++ "\n\n"),
          [fieldLine ⟨n1, o1, E, d1, some .enum⟩,
           fieldLine ⟨n2, o2, E, d2, some .enum⟩]) ∧
      2 ≤ countOccur (g ++ (exportMarker T ++ " " ++ T ++ "\n\n")
            ++ (exportMarker T ++ " " ++ T ++ "\n\n")) T := by
  have hs : searchForEnumInFiles proj cur E =
      .ok (exportMarker T ++ " " ++ T ++ "\n\n") := by
    rw [searchForEnumInFiles, hfind]
  have hsne : (exportMarker T ++ " " ++ T ++ "\n\n") ≠ "" := by
    intro he
    exact absurd (congrArg String.data (append_eq_empty_right he)) (by decide)
  have hstep : ∀ g0 : String,
      appendResolvedSymbolText proj cur ⟨n1, o1, E, d1, some .enum⟩ g0 =
        .ok (g0 ++ (exportMarker T ++ " " ++ T ++ "\n\n")) := by
    intro g0
    simp only [appendResolvedSymbolText, hs, Bind.bind, Except.bind,
      if_neg hsne, pure, Except.pure]
  have hstep2 : ∀ g0 : String,
      appendResolvedSymbolText proj cur ⟨n2, o2, E, d2, some .enum⟩ g0 =
        .ok (g0 ++ (exportMarker T ++ " " ++ T ++ "\n\n")) := by
    intro g0
    simp only [appendResolvedSymbolText, hs, Bind.bind, Except.bind,
      if_neg hsne, pure, Except.pure]
  constructor
  · rw [getPropertiesInTextFormat]
    rw [getPropertiesGo, hstep g]
    simp only [Bind.bind, Except.bind]
    rw [getPropertiesGo, hstep2 (g ++ (exportMarker T ++ " " ++ T ++ "\n\n"))]
    simp only [Bind.bind, Except.bind]
    rw [getPropertiesGo]
    simp [pure, Except.pure]
  · have i1 := countOccur_append_le (exportMarker T ++ " " ++ T) "\n\n" T
    have i2 := countOccur_append_le (exportMarker T ++ " ") T T
    have i3 := one_le_countOccur_self T hT
    have j1 := countOccur_append_le
      (g ++ (exportMarker T ++ " " ++ T ++ "\n\n"))
      (exportMarker T ++ " " ++ T ++ "\n\n") T
    have j2 := countOccur_append_le g (exportMarker T ++ " " ++ T ++ "\n\n") T
    omega

/-- Witness for C10 at a concrete file declaring enum S referenced by two
properties. -/
theorem c10_duplicate_resolution_appends_twice_witness :
    findAndExtractEnumTextFromFile c10File "S" = some "enum S { A }" ∧
      ("enum S { A }" : String) ≠ "" ∧
      (getPropertiesInTextFormat ⟨[c10File]⟩ c10File
          ⟨"D", [],
            [⟨"x", false, "S", [], some RefKind.enum⟩,
             ⟨"y", false, "S", [], some RefKind.enum⟩], []⟩ "" =
        .ok ("" ++ (exportMarker "enum S { A }" ++ " " ++ "enum S { A }" ++ "\n\n")
              ++ (exportMarker "enum S { A }" ++ " " ++ "enum S { A }" ++ "\n\n"),
            [fieldLine ⟨"x", false, "S", [], some RefKind.enum⟩,
             fieldLine ⟨"y", false, "S", [], some RefKind.enum⟩]) ∧
        2 ≤ countOccur ("" ++ (exportMarker "enum S { A }" ++ " "
              ++ "enum S { A }" ++ "\n\n")
              ++ (exportMarker "enum S { A }" ++ " " ++ "enum S { A }" ++ "\n\n"))
            "enum S { A }") :=
  ⟨rfl, by decide,
    c10_duplicate_resolution_appends_twice ⟨[c10File]⟩ c10File "D" "S"
      "enum S { A }" [] "x" "y" false false [] [] [] "" rfl (by decide)⟩

end Class2Type
